import Mathlib

/-!
Verification of the KBoot backtrace decoder (`dev/decodetrace.py`).

The script is embedded shallowly: strings are lists of characters, the
Python text helpers (`strip`, `split`, `split(sep)`) are re-implemented with
their Python semantics, the per-line extraction and the per-address
resolver invocation are pure functions, and the whole process is a function
from (argv, cached configuration, stdin lines, resolver behaviour) to an
outcome record capturing the exit code, the produced output lines, which
resolver commands were launched, and whether the cache file or stdin were
read.
-/

namespace DecodeTrace

/-- Strings of the embedding: lists of characters. -/
abbrev Str := List Char

/-- Shorthand turning a Lean string literal into the embedding's strings. -/
def str (s : String) : Str := s.data

/-- The ASCII whitespace characters recognised by Python's `str.strip()` /
`str.split()` with no arguments. -/
def pyIsSpace (c : Char) : Bool :=
  (c == ' ') || (c == '\t') || (c == '\n') || (c == '\r') || (c == '\x0b') || (c == '\x0c')

/-- Python `str.strip()`: remove leading and trailing whitespace. -/
def pyStrip (s : Str) : Str :=
  ((s.dropWhile pyIsSpace).reverse.dropWhile pyIsSpace).reverse

/-- Worker for `pySplit`, accumulating the current token reversed. -/
def pySplitGo : Str → Str → List Str
  | [], acc => if acc.isEmpty then [] else [acc.reverse]
  | c :: cs, acc =>
    if pyIsSpace c then
      if acc.isEmpty then pySplitGo cs [] else acc.reverse :: pySplitGo cs []
    else pySplitGo cs (c :: acc)

/-- Python `str.split()` with no argument: split on runs of whitespace,
producing no empty tokens. -/
def pySplit (s : Str) : List Str := pySplitGo s []

/-- Python `str.split(sep)` for a single-character separator, keeping empty
fields, as used on the resolver's stdout with separator a newline. -/
def splitNl : Str → List Str
  | [] => [[]]
  | c :: cs =>
    if c = '\n' then [] :: splitNl cs
    else
      match splitNl cs with
      | [] => [[c]]
      | t :: ts => (c :: t) :: ts

/-- Address extraction for one input line, as in the script's main loop:
the line is skipped unless it starts with the literal prefix of a space and
a hex marker; it is then stripped and split on whitespace; two tokens keep
the second when it starts with an opening parenthesis and the hex marker,
dropping its first and last characters; one token is kept verbatim; any
other count is skipped. -/
def extractAddr (line : Str) : Option Str :=
  if (str " 0x").isPrefixOf line then
    match pySplit (pyStrip line) with
    | [t] => some t
    | [_, t1] =>
      if (str "(0x").isPrefixOf t1 then some ((t1.drop 1).dropLast) else none
    | _ => none
  else none

/-- The addresses extracted from a list of input lines, in order. -/
def extractAddrs (lines : List Str) : List Str := lines.filterMap extractAddr

/-- The observable behaviour of one resolver subprocess: its exit status
and captured standard output. -/
structure ResolverResult where
  returncode : Int
  stdout : Str
deriving DecidableEq

/-- The argument vector the script passes to `Popen` for one address. -/
def resolverCmd (a2l loader addr : Str) : List Str :=
  [a2l, str "-f", str "-e", loader, addr]

/-- Outcome of processing one extracted address: skipped (resolver exited
non-zero), an emitted output line, or an uncaught indexing error. -/
inductive StepResult where
  | skip
  | emit (line : Str)
  | crash
deriving DecidableEq

/-- The output line format of the script: address, function name, location. -/
def fmtLine (addr fname loc : Str) : Str :=
  addr ++ str " - " ++ fname ++ str " @ " ++ loc

/-- Per-address processing: invoke the resolver, split its stdout on
newlines, skip the address when the exit status is non-zero, otherwise
print the first two fields; fewer than two fields is an uncaught
`IndexError`. -/
def resolveStep (resolver : List Str → ResolverResult) (a2l loader addr : Str) :
    StepResult :=
  let res := resolver (resolverCmd a2l loader addr)
  let out := splitNl res.stdout
  if res.returncode ≠ 0 then .skip
  else
    match out with
    | fname :: loc :: _ => .emit (fmtLine addr fname loc)
    | _ => .crash

/-- What one run of the main loop produces: the printed lines, the resolver
commands launched, and whether the loop aborted on an uncaught exception. -/
structure RunOut where
  output : List Str
  invoked : List (List Str)
  crashed : Bool
deriving DecidableEq

/-- The script's main loop over the stdin lines: extract an address from
each line, launch the resolver for it, and print the formatted line on
success; a crash abandons all remaining lines. -/
def runLines (resolver : List Str → ResolverResult) (a2l loader : Str) :
    List Str → RunOut
  | [] => ⟨[], [], false⟩
  | l :: ls =>
    match extractAddr l with
    | none => runLines resolver a2l loader ls
    | some addr =>
      match resolveStep resolver a2l loader addr with
      | .skip =>
        let r := runLines resolver a2l loader ls
        ⟨r.output, resolverCmd a2l loader addr :: r.invoked, r.crashed⟩
      | .emit o =>
        let r := runLines resolver a2l loader ls
        ⟨o :: r.output, resolverCmd a2l loader addr :: r.invoked, r.crashed⟩
      | .crash => ⟨[], [resolverCmd a2l loader addr], true⟩

/-- The formatted line the script prints for an address whose resolver
invocation succeeded, read off from the resolver's split stdout. -/
def fmtResolved (resolver : List Str → ResolverResult) (a2l loader addr : Str) :
    Str :=
  match splitNl (resolver (resolverCmd a2l loader addr)).stdout with
  | fname :: loc :: _ => fmtLine addr fname loc
  | _ => []

/-- POSIX `os.path.join` on two components. -/
def pyJoin2 (a b : Str) : Str :=
  if b.head? = some '/' then b
  else if a = [] ∨ a.getLast? = some '/' then a ++ b
  else a ++ '/' :: b

/-- POSIX `os.path.join` on a head component and further components. -/
def pyJoin (a : Str) (rest : List Str) : Str := rest.foldl pyJoin2 a

/-- The observable outcome of one whole run of the script. -/
structure Outcome where
  exitCode : Nat
  readCache : Bool
  readStdin : Bool
  output : List Str
  invoked : List (List Str)
  crashed : Bool
deriving DecidableEq

/-- The whole script, from the argument vector down. `cache` is the pair of
values (`CONFIG`, `CROSS_COMPILE`) that executing `.options.cache` defines,
or `none` when the file is absent or does not define them (the uncaught
exception ends the interpreter with a non-zero status). A help flag in the
first argument position prints usage and exits 1; no arguments derives the
loader path and resolver name from the cache; any argument count other than
two is an invalid-arguments exit; otherwise the two arguments are the
loader path and the resolver path and the main loop runs over stdin. -/
def pyMain (argv : List Str) (cache : Option (Str × Str)) (stdin : List Str)
    (resolver : List Str → ResolverResult) : Outcome :=
  match argv with
  | _ :: a1 :: rest =>
    if a1 = str "--help" ∨ a1 = str "-h" then
      ⟨1, false, false, [], [], false⟩
    else
      match rest with
      | [a2] =>
        let r := runLines resolver a2 a1 stdin
        ⟨if r.crashed then 1 else 0, false, true, r.output, r.invoked, r.crashed⟩
      | _ => ⟨1, false, false, [], [], false⟩
  | [_] =>
    match cache with
    | none => ⟨1, true, false, [], [], false⟩
    | some (config, cross) =>
      let loader := pyJoin (str "build") [config, str "source", str "kboot.elf"]
      let a2l := cross ++ str "addr2line"
      let r := runLines resolver a2l loader stdin
      ⟨if r.crashed then 1 else 0, true, true, r.output, r.invoked, r.crashed⟩
  | [] => ⟨1, false, false, [], [], false⟩

/-- Modelled from the spec: a well-formed hexadecimal literal, a `0x`
marker followed by at least one hexadecimal digit. Used only to state the
spec's claimed invariant on extracted address tokens; the script itself has
no such check. -/
def isHexLiteral (s : Str) : Bool :=
  (str "0x").isPrefixOf s && !(s.drop 2).isEmpty &&
    (s.drop 2).all fun c =>
      (('0' ≤ c && c ≤ '9') || ('a' ≤ c && c ≤ 'f') || ('A' ≤ c && c ≤ 'F'))

/-- A concrete resolver behaviour instantiating the order-preservation
theorem: it fails on the second of three addresses and succeeds with a
two-line answer on the others. -/
def cRes4 (cmd : List Str) : ResolverResult :=
  if cmd = resolverCmd (str "a2l") (str "kb") (str "0x2") then ⟨1, []⟩
  else ⟨0, str "f\nl\n"⟩

theorem splitNl_ne_nil (s : Str) : splitNl s ≠ [] := by
  induction s with
  | nil => simp [splitNl]
  | cons c cs ih =>
    simp only [splitNl]
    split
    · simp
    · match h : splitNl cs with
      | [] => simp
      | t :: ts => simp

theorem splitNl_append_cons (f rest : Str) (h : '\n' ∉ f) :
    splitNl (f ++ '\n' :: rest) = f :: splitNl rest := by
  induction f with
  | nil => simp [splitNl]
  | cons c cs ih =>
    have hc : c ≠ '\n' := by
      intro hcn
      exact h (by simp [hcn])
    have hcs : '\n' ∉ cs := fun hm => h (List.mem_cons_of_mem _ hm)
    simp only [List.cons_append, splitNl]
    rw [if_neg hc]
    simp only [List.append_eq]
    rw [ih hcs]

theorem splitNl_no_newline (s : Str) (h : '\n' ∉ s) : splitNl s = [s] := by
  induction s with
  | nil => rfl
  | cons c cs ih =>
    have hc : c ≠ '\n' := by
      intro hcn
      exact h (by simp [hcn])
    have hcs : '\n' ∉ cs := fun hm => h (List.mem_cons_of_mem _ hm)
    simp only [splitNl]
    rw [if_neg hc, ih hcs]

theorem splitNl_two_of_mem (s : Str) (h : '\n' ∈ s) :
    ∃ f loc rest, splitNl s = f :: loc :: rest := by
  induction s with
  | nil => simp at h
  | cons c cs ih =>
    by_cases hc : c = '\n'
    · subst hc
      obtain ⟨t, ts, ht⟩ := List.exists_cons_of_ne_nil (splitNl_ne_nil cs)
      exact ⟨[], t, ts, by simp [splitNl, ht]⟩
    · have hcs : '\n' ∈ cs := by
        rcases List.mem_cons.mp h with h1 | h1
        · exact absurd h1.symm hc
        · exact h1
      obtain ⟨f, loc, rest, hs⟩ := ih hcs
      exact ⟨c :: f, loc, rest, by simp [splitNl, hc, hs]⟩

/-- C1 counterexample: for the line made of a space, a first token and the
second token of an opening parenthesis followed by hex digits but with NO
closing parenthesis, the claim says the line is discarded, yet the script
extracts an address (the token with its first and last characters dropped,
here losing a digit), because the code only checks that the second token
starts with an opening parenthesis and the hex marker. -/
theorem c1_counterexample :
    pySplit (pyStrip (str " 0x1000 (0x2000")) = [str "0x1000", str "(0x2000"] ∧
    (str "(0x2000").getLast? ≠ some ')' ∧
    extractAddr (str " 0x1000 (0x2000") = some (str "0x200") := by
  decide

/-- C1 (amended): for every input line beginning with a space and the hex
marker that splits on whitespace into exactly two tokens, the line is
discarded unless the second token begins with an opening parenthesis
followed by the hex marker, and when it does, the extracted address is the
second token with its first and last characters removed (which, for a
properly wrapped token, strips exactly the leading and trailing
parenthesis characters). -/
theorem c1_extract_two_tokens (line t0 t1 : Str)
    (hp : (str " 0x").isPrefixOf line = true)
    (ht : pySplit (pyStrip line) = [t0, t1]) :
    extractAddr line =
      if (str "(0x").isPrefixOf t1 then some ((t1.drop 1).dropLast) else none := by
  simp only [extractAddr, hp, if_true, ht]

/-- C1 witness: the amended statement evaluated on the spec's own example
line, yielding the fully parenthesised address. -/
theorem c1_witness :
    extractAddr (str " 0x1000 (0x2000)") = some (str "0x2000") := by
  have h := c1_extract_two_tokens (str " 0x1000 (0x2000)")
    (str "0x1000") (str "(0x2000)") (by decide) (by decide)
  exact h.trans (by decide)

/-- C2 counterexample: invoking the script with only an artifact path (an
argument vector of the program name and one argument that is not a help
flag) does not proceed with a defaulted resolver as the claim states: it
is rejected as invalid arguments, exiting with status 1 without reading
stdin and without launching any resolver. -/
theorem c2_counterexample :
    pyMain [str "decode", str "kboot.elf"] none [str " 0x1000"]
        (fun _ => ⟨0, str "f\nc:1\n"⟩) =
      ⟨1, false, false, [], [], false⟩ := by
  rfl

/-- C2 (amended): supplying only the artifact path is not a valid
invocation; the explicit-argument form requires exactly two arguments
(artifact path and resolver path), and a two-entry argument vector whose
argument is not a help flag exits with status 1, reading neither the cache
nor stdin and launching no resolver. -/
theorem c2_single_arg_invalid (prog a1 : Str) (cache : Option (Str × Str))
    (stdin : List Str) (resolver : List Str → ResolverResult)
    (h1 : a1 ≠ str "--help") (h2 : a1 ≠ str "-h") :
    pyMain [prog, a1] cache stdin resolver = ⟨1, false, false, [], [], false⟩ := by
  simp only [pyMain]
  rw [if_neg]
  rintro (h | h)
  · exact h1 h
  · exact h2 h

/-- C2 witness: the amended statement instantiated on a concrete
single-argument invocation. -/
theorem c2_witness :
    pyMain [str "decode", str "kboot.elf"] none []
        (fun _ => ⟨1, []⟩) =
      ⟨1, false, false, [], [], false⟩ :=
  c2_single_arg_invalid (str "decode") (str "kboot.elf") none []
    (fun _ => ⟨1, []⟩) (by decide) (by decide)

/-- C5: when the first argument is a help flag, the run prints usage and
exits with status 1 without reading the configuration cache, without
reading stdin, and without launching any resolver, whatever the remaining
arguments, cache state, input and resolver behaviour are. -/
theorem c5_help_short_circuit (prog a1 : Str) (rest : List Str)
    (cache : Option (Str × Str)) (stdin : List Str)
    (resolver : List Str → ResolverResult)
    (h : a1 = str "--help" ∨ a1 = str "-h") :
    pyMain (prog :: a1 :: rest) cache stdin resolver =
      ⟨1, false, false, [], [], false⟩ := by
  simp only [pyMain]
  rw [if_pos h]

/-- C5 witness: the help short-circuit evaluated on a concrete invocation
with a populated cache, non-empty stdin and a resolver that would answer. -/
theorem c5_witness :
    pyMain [str "decode", str "--help"] (some (str "bios", str "x86-"))
        [str " 0x1000"] (fun _ => ⟨0, str "f\nc:1\n"⟩) =
      ⟨1, false, false, [], [], false⟩ :=
  c5_help_short_circuit (str "decode") (str "--help") []
    (some (str "bios", str "x86-")) [str " 0x1000"]
    (fun _ => ⟨0, str "f\nc:1\n"⟩) (Or.inl rfl)

/-- C7: the no-argument invocation with a missing or incomplete
configuration cache exits with a non-zero status before consuming any
stdin: no input is read, no resolver is launched, and no output line is
produced. -/
theorem c7_missing_cache_fatal (prog : Str) (stdin : List Str)
    (resolver : List Str → ResolverResult) :
    (pyMain [prog] none stdin resolver).exitCode ≠ 0 ∧
    (pyMain [prog] none stdin resolver).readStdin = false ∧
    (pyMain [prog] none stdin resolver).invoked = [] ∧
    (pyMain [prog] none stdin resolver).output = [] := by
  exact ⟨Nat.one_ne_zero, rfl, rfl, rfl⟩

/-- C8: the embedded script is a pure function of the argument vector, the
cache contents, the stdin lines and the resolver behaviour, so two runs on
the same inputs produce identical output (and identical whole outcomes). -/
theorem c8_deterministic (argv : List Str) (cache : Option (Str × Str))
    (stdin : List Str) (resolver : List Str → ResolverResult)
    (o1 o2 : Outcome)
    (h1 : o1 = pyMain argv cache stdin resolver)
    (h2 : o2 = pyMain argv cache stdin resolver) :
    o1.output = o2.output ∧ o1 = o2 := by
  subst h1
  subst h2
  exact ⟨rfl, rfl⟩

/-- C8 witness: determinism instantiated on a concrete run. -/
theorem c8_witness :
    (pyMain [str "decode", str "kb", str "a2l"] none [str " 0x1"]
        (fun _ => ⟨0, str "f\nc:1\n"⟩)).output =
      (pyMain [str "decode", str "kb", str "a2l"] none [str " 0x1"]
        (fun _ => ⟨0, str "f\nc:1\n"⟩)).output :=
  (c8_deterministic [str "decode", str "kb", str "a2l"] none [str " 0x1"]
    (fun _ => ⟨0, str "f\nc:1\n"⟩) _ _ rfl rfl).1

/-- C9: an input line that does not begin with a space followed by the hex
marker yields no extracted address, and processing it leaves the main
loop's behaviour exactly as if the line were absent: no resolver
invocation, no output line, no error. -/
theorem c9_discard_non_prefix (line : Str)
    (h : (str " 0x").isPrefixOf line = false)
    (resolver : List Str → ResolverResult) (a2l loader : Str)
    (ls : List Str) :
    extractAddr line = none ∧
    runLines resolver a2l loader (line :: ls) = runLines resolver a2l loader ls := by
  have he : extractAddr line = none := by
    simp only [extractAddr, h]
    rfl
  exact ⟨he, by simp only [runLines, he]⟩

/-- C9 witness: the discard property evaluated on a concrete noise line,
showing the run over it alone invokes nothing and outputs nothing. -/
theorem c9_witness :
    extractAddr (str "Backtrace:") = none ∧
    runLines (fun _ => ⟨0, str "f\nc:1\n"⟩) (str "a2l") (str "kb")
        [str "Backtrace:"] =
      runLines (fun _ => ⟨0, str "f\nc:1\n"⟩) (str "a2l") (str "kb") [] :=
  c9_discard_non_prefix (str "Backtrace:") (by decide)
    (fun _ => ⟨0, str "f\nc:1\n"⟩) (str "a2l") (str "kb") []

/-- C3 counterexample: the single-token line whose token is the hex marker
followed by non-hex letters is NOT a well-formed hex literal, yet the
script extracts it rather than discarding it, and the main loop launches a
resolver invocation for it — the extractor performs no hex validation. -/
theorem c3_counterexample :
    isHexLiteral (str "0xZZ") = false ∧
    extractAddr (str " 0xZZ") = some (str "0xZZ") ∧
    (runLines (fun _ => ⟨1, []⟩) (str "a2l") (str "kb") [str " 0xZZ"]).invoked =
      [[str "a2l", str "-f", str "-e", str "kb", str "0xZZ"]] := by
  decide

/-- C3 (amended): the extractor takes the candidate token verbatim with no
well-formedness check: every single-token line beginning with a space and
the hex marker has its token extracted unconditionally, and the main loop
always launches the resolver on that token; ill-formed tokens are dropped
only through the resolver's own non-zero exit, never by the extractor, and
no error is raised. -/
theorem c3_no_validation (line t : Str)
    (hp : (str " 0x").isPrefixOf line = true)
    (ht : pySplit (pyStrip line) = [t])
    (resolver : List Str → ResolverResult) (a2l loader : Str) (ls : List Str) :
    extractAddr line = some t ∧
    (runLines resolver a2l loader (line :: ls)).invoked.head? =
      some (resolverCmd a2l loader t) := by
  have he : extractAddr line = some t := by
    simp only [extractAddr, hp, if_true, ht]
  refine ⟨he, ?_⟩
  simp only [runLines, he]
  cases hstep : resolveStep resolver a2l loader t <;> simp

/-- C3 witness: the amended statement instantiated on the ill-formed token
line, with a resolver that fails on everything. -/
theorem c3_witness :
    extractAddr (str " 0xZZ") = some (str "0xZZ") ∧
    (runLines (fun _ => ⟨1, []⟩) (str "a2l") (str "kb")
        [str " 0xZZ", str " 0x1"]).invoked.head? =
      some (resolverCmd (str "a2l") (str "kb") (str "0xZZ")) :=
  c3_no_validation (str " 0xZZ") (str "0xZZ") (by decide) (by decide)
    (fun _ => ⟨1, []⟩) (str "a2l") (str "kb") [str " 0x1"]

/-- C4: when the resolver meets its interface contract (a successful exit
comes with at least two newline-separated output fields), the run never
crashes and its output is exactly the formatted line for each extracted
address whose resolver invocation succeeded, filtered and mapped in input
order — failures are absent and repeated addresses keep their
multiplicity. -/
theorem c4_output_order (resolver : List Str → ResolverResult) (a2l loader : Str)
    (lines : List Str)
    (hwf : ∀ a ∈ extractAddrs lines,
      (resolver (resolverCmd a2l loader a)).returncode = 0 →
      '\n' ∈ (resolver (resolverCmd a2l loader a)).stdout) :
    (runLines resolver a2l loader lines).crashed = false ∧
    (runLines resolver a2l loader lines).output =
      ((extractAddrs lines).filter
          (fun a => (resolver (resolverCmd a2l loader a)).returncode == 0)).map
        (fmtResolved resolver a2l loader) := by
  induction lines with
  | nil => exact ⟨rfl, rfl⟩
  | cons l ls ih =>
    have hsub : ∀ a, a ∈ extractAddrs ls → a ∈ extractAddrs (l :: ls) := by
      intro a ha
      simp only [extractAddrs, List.filterMap_cons]
      cases extractAddr l with
      | none => exact ha
      | some b => exact List.mem_cons_of_mem _ ha
    obtain ⟨ihc, iho⟩ := ih fun a ha => hwf a (hsub a ha)
    cases hx : extractAddr l with
    | none =>
      have hext : extractAddrs (l :: ls) = extractAddrs ls := by
        simp [extractAddrs, List.filterMap_cons, hx]
      rw [hext]
      simp only [runLines, hx]
      exact ⟨ihc, iho⟩
    | some addr =>
      have hmemaddr : addr ∈ extractAddrs (l :: ls) := by
        simp [extractAddrs, List.filterMap_cons, hx]
      have hext : extractAddrs (l :: ls) = addr :: extractAddrs ls := by
        simp [extractAddrs, List.filterMap_cons, hx]
      by_cases hret : (resolver (resolverCmd a2l loader addr)).returncode = 0
      · obtain ⟨fname, loc, tail, hs⟩ :=
          splitNl_two_of_mem _ (hwf addr hmemaddr hret)
        have hstep : resolveStep resolver a2l loader addr =
            .emit (fmtLine addr fname loc) := by
          simp [resolveStep, hs, hret]
        have hfmt : fmtResolved resolver a2l loader addr = fmtLine addr fname loc := by
          simp [fmtResolved, hs]
        simp only [runLines, hx, hstep]
        refine ⟨ihc, ?_⟩
        rw [hext, List.filter_cons_of_pos (by simpa using hret), List.map_cons,
          hfmt, iho]
      · have hstep : resolveStep resolver a2l loader addr = .skip := by
          simp [resolveStep, hret]
        simp only [runLines, hx, hstep]
        refine ⟨ihc, ?_⟩
        rw [hext, List.filter_cons_of_neg (by simpa using hret)]
        exact iho

/-- C4 witness: the order-preservation theorem instantiated on three
addresses whose middle resolution fails, producing exactly the first and
third formatted lines in order. -/
theorem c4_witness :
    (runLines cRes4 (str "a2l") (str "kb")
        [str " 0x1", str " 0x2", str " 0x3"]).crashed = false ∧
    (runLines cRes4 (str "a2l") (str "kb")
        [str " 0x1", str " 0x2", str " 0x3"]).output =
      [str "0x1 - f @ l", str "0x3 - f @ l"] := by
  have h := c4_output_order cRes4 (str "a2l") (str "kb")
    [str " 0x1", str " 0x2", str " 0x3"] (by decide)
  exact ⟨h.1, h.2.trans (by decide)⟩

/-- C6: for an address whose resolver invocation succeeds with standard
output of a newline-free function-name line and a newline-free location
line, each newline-terminated, the step emits exactly the line of the
address, the separator, the function name, the at-sign separator and the
location. -/
theorem c6_format_round_trip (resolver : List Str → ResolverResult)
    (a2l loader addr fname loc : Str)
    (hret : (resolver (resolverCmd a2l loader addr)).returncode = 0)
    (hout : (resolver (resolverCmd a2l loader addr)).stdout =
      fname ++ '\n' :: (loc ++ ['\n']))
    (hf : '\n' ∉ fname) (hl : '\n' ∉ loc) :
    resolveStep resolver a2l loader addr =
      .emit (addr ++ str " - " ++ fname ++ str " @ " ++ loc) := by
  have hs : splitNl (resolver (resolverCmd a2l loader addr)).stdout =
      fname :: loc :: [[]] := by
    rw [hout, splitNl_append_cons _ _ hf,
      show loc ++ ['\n'] = loc ++ '\n' :: ([] : Str) from rfl,
      splitNl_append_cons _ _ hl]
    rfl
  simp [resolveStep, hs, hret, fmtLine]

/-- C6 witness: the spec's round-trip example, a resolver answering with
the function name and the location for the example address. -/
theorem c6_witness :
    resolveStep (fun _ => ⟨0, str "foo\nfile.c:42\n"⟩) (str "addr2line")
        (str "kboot.elf") (str "0xDEAD") =
      .emit (str "0xDEAD - foo @ file.c:42") := by
  have h := c6_format_round_trip (fun _ => ⟨0, str "foo\nfile.c:42\n"⟩)
    (str "addr2line") (str "kboot.elf") (str "0xDEAD") (str "foo")
    (str "file.c:42") rfl (by decide) (by decide) (by decide)
  exact h.trans (by decide)

/-- C10: if some input line yields an address for which the resolver exits
with status zero but writes no newline to stdout, indexing the second
split field fails: the run aborts at that address with nothing emitted and
no later line processed, rather than skipping the address. -/
theorem c10_missing_newline_crash (resolver : List Str → ResolverResult)
    (a2l loader line addr : Str) (ls : List Str)
    (hx : extractAddr line = some addr)
    (hret : (resolver (resolverCmd a2l loader addr)).returncode = 0)
    (hnl : '\n' ∉ (resolver (resolverCmd a2l loader addr)).stdout) :
    runLines resolver a2l loader (line :: ls) =
      ⟨[], [resolverCmd a2l loader addr], true⟩ := by
  have hs := splitNl_no_newline _ hnl
  have hstep : resolveStep resolver a2l loader addr = .crash := by
    simp [resolveStep, hs, hret]
  simp only [runLines, hx, hstep]

/-- C10 witness: a resolver that succeeds with newline-free output crashes
the whole run on the first address; the second input line is never
processed. -/
theorem c10_witness :
    runLines (fun _ => ⟨0, str "??"⟩) (str "a2l") (str "kb")
        [str " 0x10", str " 0x20"] =
      ⟨[], [resolverCmd (str "a2l") (str "kb") (str "0x10")], true⟩ :=
  c10_missing_newline_crash (fun _ => ⟨0, str "??"⟩) (str "a2l") (str "kb")
    (str " 0x10") (str "0x10") [str " 0x20"] (by decide) rfl (by decide)

end DecodeTrace
